import Mathlib

/-!
Verification of the LevelDB log writer (db/log_writer.cc, db/log_format.h).

The embedding models the writer state, the destination sink (an append-only
file abstraction whose operations may fail), and the two operations
AddRecord and EmitPhysicalRecord, following the source line by line.
The sink is modelled as a script of statuses (one consumed per append or
flush operation, an empty script meaning every operation succeeds) together
with a log of the operations performed, so that theorems can speak about
the exact byte sequences handed to the sink and about failure behaviour.
Each call the fragmentation loop makes to EmitPhysicalRecord is also
recorded in an emission trace carrying the block offset at the moment of
the call, the record type, the fragment payload and the status returned.
-/

namespace LevelDBLog

/-- Format constant from db/log_format.h: a block is 32768 bytes. -/
def kBlockSize : Nat := 32768

/-- Format constant from db/log_format.h: header is checksum (4 bytes),
length (2 bytes), type (1 byte). -/
def kHeaderSize : Nat := 4 + 2 + 1

/-- Record types from db/log_format.h. -/
inductive RecordType where
  | kZeroType
  | kFullType
  | kFirstType
  | kMiddleType
  | kLastType
deriving DecidableEq

/-- Numeric value of each record type, as in the db/log_format.h enum. -/
def RecordType.val : RecordType → Nat
  | .kZeroType => 0
  | .kFullType => 1
  | .kFirstType => 2
  | .kMiddleType => 3
  | .kLastType => 4

/-- Status returned by sink operations and by the writer, modelling
leveldb::Status: ok, or an error carrying a code distinguishing failures. -/
inductive Status where
  | ok
  | error (e : Nat)
deriving DecidableEq

/-- Status.ok test, modelling Status::ok(). -/
def Status.isOk : Status → Bool
  | .ok => true
  | .error _ => false

/-- An operation performed against the destination WritableFile:
an append of a byte sequence, or a flush. -/
inductive SinkOp where
  | append (bytes : List Nat)
  | flush
deriving DecidableEq

/-- The destination sink (WritableFile): a script of statuses, one consumed
per operation (empty script meaning all further operations return ok), and
the log of operations performed so far, in order. -/
structure Sink where
  script : List Status
  log : List SinkOp
deriving DecidableEq

/-- WritableFile::Append: records the operation, consumes and returns the
next scripted status. -/
def Sink.append (s : Sink) (bytes : List Nat) : Status × Sink :=
  match s.script with
  | [] => (Status.ok, ⟨[], s.log ++ [SinkOp.append bytes]⟩)
  | r :: rest => (r, ⟨rest, s.log ++ [SinkOp.append bytes]⟩)

/-- WritableFile::Flush: records the operation, consumes and returns the
next scripted status. -/
def Sink.flush (s : Sink) : Status × Sink :=
  match s.script with
  | [] => (Status.ok, ⟨[], s.log ++ [SinkOp.flush]⟩)
  | r :: rest => (r, ⟨rest, s.log ++ [SinkOp.flush]⟩)

/-- Writer state: block_offset_, the current offset in the active block. -/
structure Writer where
  block_offset : Nat
deriving DecidableEq

/-- Constructor Writer(dest): block_offset_ = 0. -/
def Writer.fresh : Writer := ⟨0⟩

/-- Constructor Writer(dest, dest_length): block_offset_ = dest_length %
kBlockSize. -/
def Writer.resume (dest_length : Nat) : Writer := ⟨dest_length % kBlockSize⟩

/-- Modelled from the spec: EncodeFixed32 from util/coding.h (not under
src/), the little-endian 4-byte encoding of a 32-bit value. -/
def encodeFixed32 (v : Nat) : List Nat :=
  [v % 256, v / 256 % 256, v / 65536 % 256, v / 16777216 % 256]

/-- Modelled from the spec: the CRC-32C primitive of util/crc32c.h (not
under src/) is treated as a pure abstract function: value over a byte
sequence, extend of a running value by a byte sequence, and the storage
mask transform. All theorems hold for every such model. -/
structure CrcModel where
  value : List Nat → Nat
  extend : Nat → List Nat → Nat
  mask : Nat → Nat

/-- The precomputed type_crc_ table of InitTypeCrc: for each record type,
the crc32c::Value of the single type byte. -/
def typeCrc (c : CrcModel) (t : RecordType) : Nat := c.value [t.val]

/-- The 7-byte physical-record header built by EmitPhysicalRecord:
bytes 0-3 the masked crc little-endian (EncodeFixed32), byte 4 the low
length byte, byte 5 the high length byte, byte 6 the type value. -/
def headerBytes (c : CrcModel) (t : RecordType) (payload : List Nat) : List Nat :=
  encodeFixed32 (c.mask (c.extend (typeCrc c t) payload)) ++
    [payload.length % 256, payload.length / 256 % 256, t.val]

/-- One recorded call to EmitPhysicalRecord made by the fragmentation
loop: the block offset at the moment of the call, the record type, the
fragment payload, and the status the call returned. -/
structure Emission where
  off : Nat
  rtype : RecordType
  payload : List Nat
  status : Status
deriving DecidableEq

/-- Writer::EmitPhysicalRecord(t, ptr, length): append the 7-byte header;
if that succeeded append the payload; if that succeeded flush. The
block offset advances by kHeaderSize + length unconditionally, and the
status of the last operation performed is returned. -/
def emitPhysicalRecord (c : CrcModel) (w : Writer) (sink : Sink)
    (t : RecordType) (payload : List Nat) : Status × Writer × Sink :=
  let r1 := sink.append (headerBytes c t payload)
  let r2 :=
    if r1.1.isOk then
      let ra := r1.2.append payload
      if ra.1.isOk then ra.2.flush else ra
    else r1
  (r2.1, ⟨w.block_offset + kHeaderSize + payload.length⟩, r2.2)

/-- The block-switch step at the top of the AddRecord loop: when fewer
than kHeaderSize bytes are left in the current block, append that many
zero bytes as a trailer (only when more than zero are left; the status
of that append is not consulted) and reset block_offset to 0. -/
def blockSwitch (w : Writer) (sink : Sink) : Writer × Sink :=
  let leftover := kBlockSize - w.block_offset
  if leftover < kHeaderSize then
    let sink1 := if 0 < leftover then (sink.append (List.replicate leftover 0)).2 else sink
    (⟨0⟩, sink1)
  else (w, sink)

/-- The record-type computation of AddRecord: combine the begin flag and
the end flag (end is true when this fragment consumes all remaining
payload bytes). -/
def fragType (bgn isEnd : Bool) : RecordType :=
  if bgn && isEnd then RecordType.kFullType
  else if bgn then RecordType.kFirstType
  else if isEnd then RecordType.kLastType
  else RecordType.kMiddleType

/-- The fragmentation loop of Writer::AddRecord, starting from the state
where ptr points at payload, left = payload.length, and the begin flag is
bgn. Returns the final status, writer, sink, and the trace of the calls
made to EmitPhysicalRecord, in emission order. -/
def addRecordLoop (c : CrcModel) (w : Writer) (sink : Sink)
    (payload : List Nat) (bgn : Bool) :
    Status × Writer × Sink × List Emission :=
  let ws := blockSwitch w sink
  let avail := kBlockSize - ws.1.block_offset - kHeaderSize
  let fl := min payload.length avail
  let t := fragType bgn (payload.length == fl)
  let frag := payload.take fl
  let er := emitPhysicalRecord c ws.1 ws.2 t frag
  let e : Emission := ⟨ws.1.block_offset, t, frag, er.1⟩
  let rest := payload.drop fl
  if h : er.1.isOk = true ∧ 0 < rest.length then
    let r := addRecordLoop c er.2.1 er.2.2 rest false
    (r.1, r.2.1, r.2.2.1, e :: r.2.2.2)
  else
    (er.1, er.2.1, er.2.2, [e])
termination_by
  2 * payload.length + (if w.block_offset = kBlockSize - kHeaderSize then 1 else 0)
decreasing_by
  obtain ⟨-, hrest⟩ := h
  unfold_let rest er frag t fl avail ws at hrest ⊢
  have hemit : ∀ (w2 : Writer) (sink2 : Sink) (t2 : RecordType) (q : List Nat),
      (emitPhysicalRecord c w2 sink2 t2 q).2.1.block_offset =
        w2.block_offset + kHeaderSize + q.length := fun _ _ _ _ => rfl
  have hbs : ∀ (w2 : Writer) (sink2 : Sink),
      (blockSwitch w2 sink2).1.block_offset =
        if kBlockSize - w2.block_offset < kHeaderSize then 0
        else w2.block_offset := by
    intro w2 sink2
    unfold blockSwitch
    dsimp only
    split <;> rfl
  simp only [List.length_drop, List.length_take, hemit, hbs,
    kBlockSize, kHeaderSize] at hrest ⊢
  split_ifs at hrest ⊢ <;> omega

/-- Writer::AddRecord(slice): run the fragmentation loop with begin =
true. -/
def addRecord (c : CrcModel) (w : Writer) (sink : Sink) (payload : List Nat) :
    Status × Writer × Sink × List Emission :=
  addRecordLoop c w sink payload true

/-- The pattern of record types of a complete logical record split into n
fragments: a single kFullType when n = 1 (kLastType if the run does not
start the record), else the begin type followed by the pattern of the
remaining fragments. -/
def typeRun (bgn : Bool) : Nat → List RecordType
  | 0 => []
  | 1 => [if bgn then RecordType.kFullType else RecordType.kLastType]
  | n + 2 =>
    (if bgn then RecordType.kFirstType else RecordType.kMiddleType) ::
      typeRun false (n + 1)

/-- The fuel measure of the fragmentation loop: the loop consumes payload
bytes every iteration, except for the single possible zero-length
fragment emitted when the block has exactly kHeaderSize bytes left. -/
def loopFuel (p : List Nat) (w : Writer) : Nat :=
  2 * p.length + (if w.block_offset = kBlockSize - kHeaderSize then 1 else 0)

/-- A concrete CRC model for evaluating runs on concrete inputs; the
claims hold for every model, this one just makes headers computable. -/
def crc0 : CrcModel := ⟨fun _ => 0, fun _ _ => 0, fun v => v⟩

/-- A sink with an empty script (every operation succeeds) and empty log. -/
def sink0 : Sink := ⟨[], []⟩

/-- A sink scripted to fail on the fourth operation, so that the second
physical record of a two-fragment AddRecord call fails at its header
append. -/
def sinkFail4 : Sink := ⟨[Status.ok, Status.ok, Status.ok, Status.error 7], []⟩

/-- A sink scripted to fail on the first operation only; when the first
operation performed is a block trailer append, the failure is discarded. -/
def sinkFail1 : Sink := ⟨[Status.error 5], []⟩

/-- A payload one byte longer than the payload capacity of a fresh block,
forcing fragmentation into two physical records. -/
def bigP : List Nat := List.replicate 32762 0

theorem blockSwitch_block_offset (w : Writer) (sink : Sink) :
    (blockSwitch w sink).1.block_offset =
      if kBlockSize - w.block_offset < kHeaderSize then 0 else w.block_offset := by
  unfold blockSwitch
  dsimp only
  split <;> rfl

theorem emit_block_offset (c : CrcModel) (w : Writer) (sink : Sink)
    (t : RecordType) (payload : List Nat) :
    (emitPhysicalRecord c w sink t payload).2.1.block_offset =
      w.block_offset + kHeaderSize + payload.length := by
  unfold emitPhysicalRecord
  rfl

theorem typeRun_succ (bgn : Bool) (n : Nat) (h : 1 ≤ n) :
    typeRun bgn (n + 1) =
      (if bgn then RecordType.kFirstType else RecordType.kMiddleType) ::
        typeRun false n := by
  cases n with
  | zero => omega
  | succ m => rfl

theorem fragType_end (bgn : Bool) :
    fragType bgn true =
      if bgn then RecordType.kFullType else RecordType.kLastType := by
  cases bgn <;> rfl

theorem fragType_not_end (bgn : Bool) :
    fragType bgn false =
      if bgn then RecordType.kFirstType else RecordType.kMiddleType := by
  cases bgn <;> rfl

theorem emit_script_nil (c : CrcModel) (w : Writer) (sink : Sink)
    (t : RecordType) (p : List Nat) (h : sink.script = []) :
    (emitPhysicalRecord c w sink t p).1 = Status.ok ∧
      (emitPhysicalRecord c w sink t p).2.2.script = [] := by
  obtain ⟨sc, lg⟩ := sink
  obtain rfl : sc = [] := h
  exact ⟨rfl, rfl⟩

theorem blockSwitch_script_nil (w : Writer) (sink : Sink)
    (h : sink.script = []) : (blockSwitch w sink).2.script = [] := by
  obtain ⟨sc, lg⟩ := sink
  obtain rfl : sc = [] := h
  unfold blockSwitch
  dsimp only
  split_ifs <;> rfl

/-- The master invariant of the fragmentation loop, by strong induction on
the fuel measure: the trace is nonempty; the final block offset is at most
kBlockSize; every emission satisfies the EmitPhysicalRecord preconditions;
the returned status is the status of the last emission and all earlier
emissions succeeded; on success the payloads concatenate to the input and
the types follow the begin/end pattern; if all emissions succeeded the call
succeeded; and with an all-ok script the call returns ok. -/
theorem loop_main (c : CrcModel) :
    ∀ (n : Nat) (w : Writer) (sink : Sink) (p : List Nat) (bgn : Bool),
      loopFuel p w ≤ n →
      ((addRecordLoop c w sink p bgn).2.2.2 ≠ [] ∧
       (addRecordLoop c w sink p bgn).2.1.block_offset ≤ kBlockSize ∧
       (∀ e ∈ (addRecordLoop c w sink p bgn).2.2.2,
          e.payload.length ≤ 65535 ∧
          e.off + kHeaderSize + e.payload.length ≤ kBlockSize) ∧
       ((addRecordLoop c w sink p bgn).2.2.2.getLast?.map Emission.status
          = some (addRecordLoop c w sink p bgn).1) ∧
       (∀ e ∈ (addRecordLoop c w sink p bgn).2.2.2.dropLast,
          e.status.isOk = true) ∧
       ((addRecordLoop c w sink p bgn).1.isOk = true →
          ((addRecordLoop c w sink p bgn).2.2.2.map Emission.payload).flatten = p) ∧
       ((addRecordLoop c w sink p bgn).1.isOk = true →
          (addRecordLoop c w sink p bgn).2.2.2.map Emission.rtype
            = typeRun bgn (addRecordLoop c w sink p bgn).2.2.2.length) ∧
       ((∀ e ∈ (addRecordLoop c w sink p bgn).2.2.2, e.status.isOk = true) →
          (addRecordLoop c w sink p bgn).1.isOk = true) ∧
       (sink.script = [] → (addRecordLoop c w sink p bgn).1 = Status.ok ∧
          (addRecordLoop c w sink p bgn).2.2.1.script = [])) := by
  intro n
  induction n using Nat.strong_induction_on with
  | _ n IH =>
    intro w sink p bgn hn
    rw [addRecordLoop.eq_def]
    dsimp only
    set W1 : Writer := (blockSwitch w sink).1 with hW1
    set SK : Sink := (blockSwitch w sink).2 with hSK
    set FL : Nat := min p.length (kBlockSize - W1.block_offset - kHeaderSize) with hFL
    set T : RecordType := fragType bgn (p.length == FL) with hT
    set FR : List Nat := p.take FL with hFR
    set ER : Status × Writer × Sink := emitPhysicalRecord c W1 SK T FR with hER
    set RS : List Nat := p.drop FL with hRS
    have hhead : FR.length ≤ 65535 ∧
        W1.block_offset + kHeaderSize + FR.length ≤ kBlockSize := by
      rw [hFR, List.length_take, hFL, hW1, blockSwitch_block_offset]
      simp only [kBlockSize, kHeaderSize]
      split_ifs <;> omega
    by_cases hc : ER.1.isOk = true ∧ 0 < RS.length
    · simp only [dif_pos hc]
      obtain ⟨hok1, hrest⟩ := hc
      have hdec : loopFuel RS ER.2.1 < loopFuel p w := by
        rw [hRS, List.length_drop] at hrest
        unfold loopFuel
        rw [hRS, List.length_drop, hER, emit_block_offset, hFR, List.length_take,
          hFL, hW1, blockSwitch_block_offset]
        rw [hFL] at hrest
        rw [hW1, blockSwitch_block_offset] at hrest
        simp only [kBlockSize, kHeaderSize] at hrest ⊢
        split_ifs at hrest ⊢ <;> omega
      have hstep := IH (loopFuel RS ER.2.1) (lt_of_lt_of_le hdec hn) ER.2.1 ER.2.2 RS false le_rfl
      obtain ⟨hA1, hA2, hA3, hA4, hA5, hA6, hA7, hA8, hA9⟩ := hstep
      obtain ⟨x, xs, hxx⟩ := List.exists_cons_of_ne_nil hA1
      refine ⟨by simp, hA2, ?_, ?_, ?_, ?_, ?_, ?_, ?_⟩
      · intro e he
        rcases List.mem_cons.mp he with rfl | hmem
        · exact hhead
        · exact hA3 e hmem
      · rw [hxx, List.getLast?_cons_cons]
        rw [hxx] at hA4
        exact hA4
      · rw [hxx, List.dropLast_cons₂]
        intro e he
        rcases List.mem_cons.mp he with rfl | hmem
        · exact hok1
        · exact hA5 e (by rw [hxx]; exact hmem)
      · intro hok
        simp only [List.map_cons, List.flatten_cons]
        rw [hA6 hok, hRS, hFR, List.take_append_drop]
      · intro hok
        have hlen : 1 ≤ (addRecordLoop c ER.2.1 ER.2.2 RS false).2.2.2.length :=
          List.length_pos.mpr hA1
        have hlt : FL < p.length := by
          rw [hRS, List.length_drop] at hrest
          omega
        have hne : (p.length == FL) = false := by
          simp only [beq_eq_false_iff_ne]
          omega
        simp only [List.map_cons, List.length_cons]
        rw [typeRun_succ bgn _ hlen, hA7 hok, hT, hne, fragType_not_end]
      · intro hall
        refine hA8 ?_
        intro e hmem
        exact hall e (List.mem_cons_of_mem _ hmem)
      · intro hnil
        have h1 : SK.script = [] := by
          rw [hSK]
          exact blockSwitch_script_nil w sink hnil
        have h2 := emit_script_nil c W1 SK T FR h1
        exact hA9 (by rw [hER]; exact h2.2)
    · simp only [dif_neg hc]
      refine ⟨by simp, ?_, ?_, ?_, ?_, ?_, ?_, ?_, ?_⟩
      · rw [hER, emit_block_offset, hFR, List.length_take, hFL, hW1,
          blockSwitch_block_offset]
        simp only [kBlockSize, kHeaderSize]
        split_ifs <;> omega
      · intro e he
        rcases List.mem_cons.mp he with rfl | h0
        · exact hhead
        · simp at h0
      · simp
      · simp
      · intro hok
        have hz : ¬ 0 < RS.length := fun hr => hc ⟨hok, hr⟩
        rw [hRS, List.length_drop] at hz
        have hle : p.length ≤ FL := by omega
        simp only [List.map_cons, List.map_nil, List.flatten_cons, List.flatten_nil,
          List.append_nil]
        rw [hFR, List.take_of_length_le hle]
      · intro hok
        have hz : ¬ 0 < RS.length := fun hr => hc ⟨hok, hr⟩
        rw [hRS, List.length_drop] at hz
        have hfle : FL ≤ p.length := by
          rw [hFL]
          exact min_le_left _ _
        have heq : (p.length == FL) = true := by
          simp only [beq_iff_eq]
          omega
        simp only [List.map_cons, List.map_nil, List.length_cons, List.length_nil]
        rw [hT, heq, fragType_end]
        rfl
      · intro hall
        exact hall _ (List.mem_cons_self _ _)
      · intro hnil
        have h1 : SK.script = [] := by
          rw [hSK]
          exact blockSwitch_script_nil w sink hnil
        have h2 := emit_script_nil c W1 SK T FR h1
        exact ⟨by rw [hER]; exact h2.1, by rw [hER]; exact h2.2⟩
theorem loop_trace_nonempty (c : CrcModel) (w : Writer) (sink : Sink)
    (p : List Nat) (bgn : Bool) :
    (addRecordLoop c w sink p bgn).2.2.2 ≠ [] :=
  (loop_main c (loopFuel p w) w sink p bgn le_rfl).1

theorem loop_offset_le (c : CrcModel) (w : Writer) (sink : Sink)
    (p : List Nat) (bgn : Bool) :
    (addRecordLoop c w sink p bgn).2.1.block_offset ≤ kBlockSize :=
  (loop_main c (loopFuel p w) w sink p bgn le_rfl).2.1

theorem loop_emission_bounds (c : CrcModel) (w : Writer) (sink : Sink)
    (p : List Nat) (bgn : Bool) :
    ∀ e ∈ (addRecordLoop c w sink p bgn).2.2.2,
      e.payload.length ≤ 65535 ∧
      e.off + kHeaderSize + e.payload.length ≤ kBlockSize :=
  (loop_main c (loopFuel p w) w sink p bgn le_rfl).2.2.1

theorem loop_last_status (c : CrcModel) (w : Writer) (sink : Sink)
    (p : List Nat) (bgn : Bool) :
    (addRecordLoop c w sink p bgn).2.2.2.getLast?.map Emission.status
      = some (addRecordLoop c w sink p bgn).1 :=
  (loop_main c (loopFuel p w) w sink p bgn le_rfl).2.2.2.1

theorem loop_front_ok (c : CrcModel) (w : Writer) (sink : Sink)
    (p : List Nat) (bgn : Bool) :
    ∀ e ∈ (addRecordLoop c w sink p bgn).2.2.2.dropLast, e.status.isOk = true :=
  (loop_main c (loopFuel p w) w sink p bgn le_rfl).2.2.2.2.1

theorem loop_concat (c : CrcModel) (w : Writer) (sink : Sink)
    (p : List Nat) (bgn : Bool) :
    (addRecordLoop c w sink p bgn).1.isOk = true →
      ((addRecordLoop c w sink p bgn).2.2.2.map Emission.payload).flatten = p :=
  (loop_main c (loopFuel p w) w sink p bgn le_rfl).2.2.2.2.2.1

theorem loop_types (c : CrcModel) (w : Writer) (sink : Sink)
    (p : List Nat) (bgn : Bool) :
    (addRecordLoop c w sink p bgn).1.isOk = true →
      (addRecordLoop c w sink p bgn).2.2.2.map Emission.rtype
        = typeRun bgn (addRecordLoop c w sink p bgn).2.2.2.length :=
  (loop_main c (loopFuel p w) w sink p bgn le_rfl).2.2.2.2.2.2.1

theorem loop_ok_of_all_ok (c : CrcModel) (w : Writer) (sink : Sink)
    (p : List Nat) (bgn : Bool) :
    (∀ e ∈ (addRecordLoop c w sink p bgn).2.2.2, e.status.isOk = true) →
      (addRecordLoop c w sink p bgn).1.isOk = true :=
  (loop_main c (loopFuel p w) w sink p bgn le_rfl).2.2.2.2.2.2.2.1

theorem loop_script_nil (c : CrcModel) (w : Writer) (sink : Sink)
    (p : List Nat) (bgn : Bool) (h : sink.script = []) :
    (addRecordLoop c w sink p bgn).1 = Status.ok ∧
      (addRecordLoop c w sink p bgn).2.2.1.script = [] :=
  (loop_main c (loopFuel p w) w sink p bgn le_rfl).2.2.2.2.2.2.2.2 h

theorem evalSmall :
    addRecord crc0 Writer.fresh sink0 [5] =
      (Status.ok, ⟨8⟩,
        ⟨[], [SinkOp.append [0, 0, 0, 0, 1, 0, 1], SinkOp.append [5], SinkOp.flush]⟩,
        [⟨0, RecordType.kFullType, [5], Status.ok⟩]) := by
  unfold addRecord
  rw [addRecordLoop.eq_def]
  norm_num [blockSwitch, emitPhysicalRecord, headerBytes, encodeFixed32, typeCrc,
    Sink.append, Sink.flush, Status.isOk, crc0, sink0, Writer.fresh, kBlockSize,
    kHeaderSize, fragType, RecordType.val]

theorem evalExactFill :
    addRecord crc0 (Writer.resume 32760) sink0 [7] =
      (Status.ok, ⟨32768⟩,
        ⟨[], [SinkOp.append [0, 0, 0, 0, 1, 0, 1], SinkOp.append [7], SinkOp.flush]⟩,
        [⟨32760, RecordType.kFullType, [7], Status.ok⟩]) := by
  unfold addRecord
  rw [addRecordLoop.eq_def]
  norm_num [blockSwitch, emitPhysicalRecord, headerBytes, encodeFixed32, typeCrc,
    Sink.append, Sink.flush, Status.isOk, crc0, sink0, Writer.resume, kBlockSize,
    kHeaderSize, fragType, RecordType.val]

theorem evalFailSecond :
    addRecord crc0 (Writer.resume 32755) sinkFail4 [1, 2, 3, 4, 5, 6, 7] =
      (Status.error 7, ⟨8⟩,
        ⟨[], [SinkOp.append [0, 0, 0, 0, 6, 0, 2], SinkOp.append [1, 2, 3, 4, 5, 6],
          SinkOp.flush, SinkOp.append [0, 0, 0, 0, 1, 0, 4]]⟩,
        [⟨32755, RecordType.kFirstType, [1, 2, 3, 4, 5, 6], Status.ok⟩,
         ⟨0, RecordType.kLastType, [7], Status.error 7⟩]) := by
  unfold addRecord
  rw [addRecordLoop.eq_def]
  norm_num [blockSwitch, emitPhysicalRecord, headerBytes, encodeFixed32, typeCrc,
    Sink.append, Sink.flush, Status.isOk, crc0, sinkFail4, Writer.resume, kBlockSize,
    kHeaderSize, fragType, RecordType.val]
  rw [addRecordLoop.eq_def]
  norm_num [blockSwitch, emitPhysicalRecord, headerBytes, encodeFixed32, typeCrc,
    Sink.append, Sink.flush, Status.isOk, crc0, kBlockSize,
    kHeaderSize, fragType, RecordType.val]

theorem evalTrailerFail :
    addRecord crc0 (Writer.resume 32765) sinkFail1 [9] =
      (Status.ok, ⟨8⟩,
        ⟨[], [SinkOp.append [0, 0, 0], SinkOp.append [0, 0, 0, 0, 1, 0, 1],
          SinkOp.append [9], SinkOp.flush]⟩,
        [⟨0, RecordType.kFullType, [9], Status.ok⟩]) := by
  unfold addRecord
  rw [addRecordLoop.eq_def]
  norm_num [blockSwitch, emitPhysicalRecord, headerBytes, encodeFixed32, typeCrc,
    Sink.append, Sink.flush, Status.isOk, crc0, sinkFail1, Writer.resume, kBlockSize,
    kHeaderSize, fragType, RecordType.val]
  rfl

theorem loop_spanning (c : CrcModel) (w : Writer) (sink : Sink) (p : List Nat)
    (h0 : w.block_offset = 0) (hlen : kBlockSize - kHeaderSize < p.length)
    (h : (addRecordLoop c w sink p true).1.isOk = true) :
    2 ≤ (addRecordLoop c w sink p true).2.2.2.length := by
  rw [addRecordLoop.eq_def] at h ⊢
  dsimp only at h ⊢
  set W1 : Writer := (blockSwitch w sink).1 with hW1
  set SK : Sink := (blockSwitch w sink).2 with hSK
  set FL : Nat := min p.length (kBlockSize - W1.block_offset - kHeaderSize) with hFL
  set T : RecordType := fragType true (p.length == FL) with hT
  set FR : List Nat := p.take FL with hFR
  set ER : Status × Writer × Sink := emitPhysicalRecord c W1 SK T FR with hER
  set RS : List Nat := p.drop FL with hRS
  have hW1o : W1.block_offset = 0 := by
    rw [hW1, blockSwitch_block_offset, h0]
    simp [kBlockSize, kHeaderSize]
  have hrest : 0 < RS.length := by
    rw [hRS, List.length_drop, hFL, hW1o]
    simp only [kBlockSize, kHeaderSize] at hlen ⊢
    omega
  by_cases hok : ER.1.isOk = true
  · have hc : ER.1.isOk = true ∧ 0 < RS.length := ⟨hok, hrest⟩
    simp only [dif_pos hc]
    have hne := loop_trace_nonempty c ER.2.1 ER.2.2 RS false
    have hpos := List.length_pos.mpr hne
    simp only [List.length_cons]
    omega
  · rw [dif_neg (fun hcon => hok hcon.1)] at h
    exact absurd h hok

/-- Claim C1: for every byte sequence P (including the empty one), if an
AddRecord(P) call succeeds, the payloads of the physical records it
emitted concatenate, in emission order, to exactly P, with nothing added,
dropped or reordered. -/
theorem addRecord_roundtrip (c : CrcModel) (w : Writer) (sink : Sink)
    (p : List Nat) (h : (addRecord c w sink p).1.isOk = true) :
    ((addRecord c w sink p).2.2.2.map Emission.payload).flatten = p :=
  loop_concat c w sink p true h

theorem addRecord_roundtrip_witness :
    (addRecord crc0 Writer.fresh sink0 [1, 2, 3]).1.isOk = true ∧
      ((addRecord crc0 Writer.fresh sink0 [1, 2, 3]).2.2.2.map
        Emission.payload).flatten = [1, 2, 3] := by
  have h : (addRecord crc0 Writer.fresh sink0 [1, 2, 3]).1.isOk = true := by
    unfold addRecord
    rw [(loop_script_nil crc0 Writer.fresh sink0 [1, 2, 3] true rfl).1]
    rfl
  exact ⟨h, addRecord_roundtrip crc0 Writer.fresh sink0 [1, 2, 3] h⟩

/-- Claim C2: every fragment the AddRecord loop passes to
EmitPhysicalRecord satisfies both preconditions asserted there: its
length is at most 65535, and the block offset at the moment of emission
plus kHeaderSize plus the length is at most kBlockSize, so no physical
record crosses a block boundary. -/
theorem addRecord_emit_preconditions (c : CrcModel) (w : Writer) (sink : Sink)
    (p : List Nat) :
    ∀ e ∈ (addRecord c w sink p).2.2.2,
      e.payload.length ≤ 65535 ∧
      e.off + kHeaderSize + e.payload.length ≤ kBlockSize :=
  loop_emission_bounds c w sink p true

theorem addRecord_emit_preconditions_witness :
    (⟨0, RecordType.kFullType, [5], Status.ok⟩ : Emission) ∈
        (addRecord crc0 Writer.fresh sink0 [5]).2.2.2 ∧
      ((⟨0, RecordType.kFullType, [5], Status.ok⟩ : Emission).payload.length ≤ 65535 ∧
        (⟨0, RecordType.kFullType, [5], Status.ok⟩ : Emission).off + kHeaderSize +
          (⟨0, RecordType.kFullType, [5], Status.ok⟩ : Emission).payload.length
            ≤ kBlockSize) := by
  have hm : (⟨0, RecordType.kFullType, [5], Status.ok⟩ : Emission) ∈
      (addRecord crc0 Writer.fresh sink0 [5]).2.2.2 := by
    rw [evalSmall]
    simp
  exact ⟨hm, addRecord_emit_preconditions crc0 Writer.fresh sink0 [5] _ hm⟩

/-- Claim C3: in a successful AddRecord call the emitted record types
follow the begin/end rule: a single kFullType record, or kFirstType, then
zero or more kMiddleType, then kLastType; in particular a payload longer
than kBlockSize - kHeaderSize written with block_offset 0 produces at
least two records in that pattern. -/
theorem addRecord_fragment_types (c : CrcModel) (w : Writer) (sink : Sink)
    (p : List Nat) (h : (addRecord c w sink p).1.isOk = true) :
    (addRecord c w sink p).2.2.2.map Emission.rtype
        = typeRun true (addRecord c w sink p).2.2.2.length ∧
      (w.block_offset = 0 → kBlockSize - kHeaderSize < p.length →
        2 ≤ (addRecord c w sink p).2.2.2.length) :=
  ⟨loop_types c w sink p true h,
    fun h0 hlen => loop_spanning c w sink p h0 hlen h⟩

theorem addRecord_fragment_types_witness :
    (addRecord crc0 Writer.fresh sink0 bigP).1.isOk = true ∧
      Writer.fresh.block_offset = 0 ∧
      kBlockSize - kHeaderSize < bigP.length ∧
      (addRecord crc0 Writer.fresh sink0 bigP).2.2.2.map Emission.rtype
        = typeRun true (addRecord crc0 Writer.fresh sink0 bigP).2.2.2.length ∧
      2 ≤ (addRecord crc0 Writer.fresh sink0 bigP).2.2.2.length := by
  have h : (addRecord crc0 Writer.fresh sink0 bigP).1.isOk = true := by
    unfold addRecord
    rw [(loop_script_nil crc0 Writer.fresh sink0 bigP true rfl).1]
    rfl
  have h0 : Writer.fresh.block_offset = 0 := rfl
  have hlen : kBlockSize - kHeaderSize < bigP.length := by
    unfold bigP
    rw [List.length_replicate]
    norm_num [kBlockSize, kHeaderSize]
  have hthm := addRecord_fragment_types crc0 Writer.fresh sink0 bigP h
  exact ⟨h, h0, hlen, hthm.1, hthm.2 h0 hlen⟩

/-- Claim C4 as stated is false at this input: a record that exactly fills
the current block leaves block_offset equal to kBlockSize, not strictly
below it, when AddRecord returns. -/
theorem block_offset_range_counterexample :
    ¬ ((addRecord crc0 (Writer.resume 32760) sink0 [7]).2.1.block_offset
        < kBlockSize) := by
  rw [evalExactFill]
  simp [kBlockSize]

/-- Claim C4 (amended): block_offset is strictly below kBlockSize after
construction in either mode, and at most kBlockSize (the bound is closed,
reached exactly when the last record filled the block) after every
AddRecord call. -/
theorem block_offset_range :
    Writer.fresh.block_offset < kBlockSize ∧
      (∀ dest_length : Nat,
        (Writer.resume dest_length).block_offset < kBlockSize) ∧
      ∀ (c : CrcModel) (w : Writer) (sink : Sink) (p : List Nat),
        (addRecord c w sink p).2.1.block_offset ≤ kBlockSize := by
  refine ⟨by simp [Writer.fresh, kBlockSize], fun dl => ?_,
    fun c w sink p => loop_offset_le c w sink p true⟩
  simp only [Writer.resume]
  exact Nat.mod_lt _ (by simp [kBlockSize])

/-- Claim C5: whenever fewer than kHeaderSize bytes remain in the current
block, the block-switch step of the loop appends exactly that many zero
bytes to the sink when the remainder is positive, appends nothing when it
is zero, and resets block_offset to 0. -/
theorem blockSwitch_trailer (w : Writer) (sink : Sink)
    (h : kBlockSize - w.block_offset < kHeaderSize) :
    (blockSwitch w sink).1.block_offset = 0 ∧
      (0 < kBlockSize - w.block_offset →
        (blockSwitch w sink).2.log =
          sink.log ++
            [SinkOp.append (List.replicate (kBlockSize - w.block_offset) 0)]) ∧
      (kBlockSize - w.block_offset = 0 →
        (blockSwitch w sink).2.log = sink.log) := by
  unfold blockSwitch
  dsimp only
  rw [if_pos h]
  refine ⟨rfl, fun hpos => ?_, fun hz => ?_⟩
  · rw [if_pos hpos]
    obtain ⟨sc, lg⟩ := sink
    cases sc <;> rfl
  · rw [if_neg (by omega)]

theorem blockSwitch_trailer_witness :
    kBlockSize - (⟨32765⟩ : Writer).block_offset < kHeaderSize ∧
      0 < kBlockSize - (⟨32765⟩ : Writer).block_offset ∧
      (blockSwitch ⟨32765⟩ sink0).1.block_offset = 0 ∧
      (blockSwitch ⟨32765⟩ sink0).2.log =
        sink0.log ++
          [SinkOp.append (List.replicate (kBlockSize - (⟨32765⟩ : Writer).block_offset) 0)] := by
  have h : kBlockSize - (⟨32765⟩ : Writer).block_offset < kHeaderSize := by
    decide
  have hpos : 0 < kBlockSize - (⟨32765⟩ : Writer).block_offset := by decide
  have hthm := blockSwitch_trailer ⟨32765⟩ sink0 h
  exact ⟨h, hpos, hthm.1, hthm.2.1 hpos⟩

/-- Claim C6: EmitPhysicalRecord builds a 7-byte header whose bytes 0-3
are the little-endian masked CRC computed by extending the precomputed
per-type seed with the payload, bytes 4-5 the payload length
little-endian, byte 6 the type value; the header is appended to the sink
before the payload, which precedes the flush. -/
theorem emit_header_layout (c : CrcModel) (w : Writer) (sink : Sink)
    (t : RecordType) (p : List Nat) :
    (headerBytes c t p).length = kHeaderSize ∧
      headerBytes c t p =
        encodeFixed32 (c.mask (c.extend (typeCrc c t) p)) ++
          [p.length % 256, p.length / 256 % 256, t.val] ∧
      ∃ tl, (emitPhysicalRecord c w sink t p).2.2.log =
          sink.log ++ SinkOp.append (headerBytes c t p) :: tl ∧
        (tl = [] ∨ tl = [SinkOp.append p] ∨
          tl = [SinkOp.append p, SinkOp.flush]) := by
  refine ⟨by simp [headerBytes, encodeFixed32, kHeaderSize], rfl, ?_⟩
  obtain ⟨sc, lg⟩ := sink
  unfold emitPhysicalRecord Sink.append Sink.flush
  rcases sc with _ | ⟨r1, sc1⟩
  · refine ⟨[SinkOp.append p, SinkOp.flush], ?_, by simp⟩
    simp [Status.isOk, List.append_assoc]
  · rcases r1 with _ | e1
    · rcases sc1 with _ | ⟨r2, sc2⟩
      · refine ⟨[SinkOp.append p, SinkOp.flush], ?_, by simp⟩
        simp [Status.isOk, List.append_assoc]
      · rcases r2 with _ | e2
        · refine ⟨[SinkOp.append p, SinkOp.flush], ?_, by simp⟩
          cases sc2 <;> simp [Status.isOk, List.append_assoc]
        · refine ⟨[SinkOp.append p], ?_, by simp⟩
          simp [Status.isOk, List.append_assoc]
    · refine ⟨[], ?_, by simp⟩
      simp [Status.isOk]

/-- Claim C7: AddRecord returns precisely the status of the last
EmitPhysicalRecord call it made, and every earlier call succeeded: the
loop terminates on the first non-ok status and emits no fragment after a
failing one. -/
theorem addRecord_failure_propagation (c : CrcModel) (w : Writer)
    (sink : Sink) (p : List Nat) :
    (addRecord c w sink p).2.2.2 ≠ [] ∧
      (addRecord c w sink p).2.2.2.getLast?.map Emission.status
        = some (addRecord c w sink p).1 ∧
      ∀ e ∈ (addRecord c w sink p).2.2.2.dropLast, e.status.isOk = true :=
  ⟨loop_trace_nonempty c w sink p true, loop_last_status c w sink p true,
    loop_front_ok c w sink p true⟩

theorem addRecord_failure_propagation_witness :
    (addRecord crc0 (Writer.resume 32755) sinkFail4 [1, 2, 3, 4, 5, 6, 7]).1
        = Status.error 7 ∧
      (⟨32755, RecordType.kFirstType, [1, 2, 3, 4, 5, 6], Status.ok⟩ : Emission) ∈
        (addRecord crc0 (Writer.resume 32755) sinkFail4
          [1, 2, 3, 4, 5, 6, 7]).2.2.2.dropLast ∧
      (⟨32755, RecordType.kFirstType, [1, 2, 3, 4, 5, 6], Status.ok⟩ :
        Emission).status.isOk = true ∧
      (addRecord crc0 (Writer.resume 32755) sinkFail4
          [1, 2, 3, 4, 5, 6, 7]).2.2.2.getLast?.map Emission.status
        = some (addRecord crc0 (Writer.resume 32755) sinkFail4
            [1, 2, 3, 4, 5, 6, 7]).1 := by
  have hm : (⟨32755, RecordType.kFirstType, [1, 2, 3, 4, 5, 6], Status.ok⟩ :
      Emission) ∈
      (addRecord crc0 (Writer.resume 32755) sinkFail4
        [1, 2, 3, 4, 5, 6, 7]).2.2.2.dropLast := by
    rw [evalFailSecond]
    simp
  refine ⟨by rw [evalFailSecond], hm, ?_, ?_⟩
  · exact (addRecord_failure_propagation crc0 (Writer.resume 32755) sinkFail4
      [1, 2, 3, 4, 5, 6, 7]).2.2 _ hm
  · exact (addRecord_failure_propagation crc0 (Writer.resume 32755) sinkFail4
      [1, 2, 3, 4, 5, 6, 7]).2.1

/-- Claim C8: every EmitPhysicalRecord call advances block_offset by
exactly kHeaderSize plus the payload length, for every sink, hence no
matter whether the header append, payload append or flush succeeded. -/
theorem emit_advances_offset (c : CrcModel) (w : Writer) (sink : Sink)
    (t : RecordType) (p : List Nat) :
    (emitPhysicalRecord c w sink t p).2.1.block_offset =
      w.block_offset + kHeaderSize + p.length :=
  emit_block_offset c w sink t p

/-- Claim C9: AddRecord on an empty payload emits exactly one physical
record, of type kFullType with an empty payload: the loop body runs
exactly once. -/
theorem addRecord_empty_payload (c : CrcModel) (w : Writer) (sink : Sink) :
    (addRecord c w sink []).2.2.2.map (fun e => (e.rtype, e.payload)) =
      [(RecordType.kFullType, ([] : List Nat))] := by
  unfold addRecord
  rw [addRecordLoop.eq_def]
  norm_num [fragType]

/-- Claim C10: the status of the block-trailer append is discarded: if
every EmitPhysicalRecord call in the trace succeeded then AddRecord
returns a success status, regardless of what the trailer append
returned. -/
theorem addRecord_trailer_status_discarded (c : CrcModel) (w : Writer)
    (sink : Sink) (p : List Nat)
    (h : ∀ e ∈ (addRecord c w sink p).2.2.2, e.status.isOk = true) :
    (addRecord c w sink p).1.isOk = true :=
  loop_ok_of_all_ok c w sink p true h

theorem addRecord_trailer_status_discarded_witness :
    (∀ e ∈ (addRecord crc0 (Writer.resume 32765) sinkFail1 [9]).2.2.2,
        e.status.isOk = true) ∧
      (addRecord crc0 (Writer.resume 32765) sinkFail1 [9]).1.isOk = true := by
  have hall : ∀ e ∈ (addRecord crc0 (Writer.resume 32765) sinkFail1 [9]).2.2.2,
      e.status.isOk = true := by
    intro e he
    rw [evalTrailerFail] at he
    simp at he
    subst he
    rfl
  exact ⟨hall,
    addRecord_trailer_status_discarded crc0 (Writer.resume 32765) sinkFail1 [9] hall⟩

end LevelDBLog
